import Mathlib

/-!
Verification development for the certificate-analysis backend
(FastAPI orchestrator `app/main.py`, forensics agent `app/agents/forensics.py`,
extraction agent `app/agents/ext.py`, verification service
`app/agents/verification/{service,sources,visual,scanner}.py`, and the pydantic
schemas `app/schemas.py`).

Embedding conventions:
* Python `str` values that undergo character-level processing are modelled as
  `List Char`; fixed status/message/method strings stay as Lean `String`.
  The empty list plays the role of both Python `None` and the empty string
  wherever the source only ever tests truthiness (`if s:`).
* Python floats are modelled as rationals (`ℚ`); `round(x, 2)` is modelled by
  round-half-to-even at two decimal places, mirroring CPython `round`.
* External collaborators (Tesseract, EasyOCR, the Mistral chat API, the Ollama
  LLM, HTTP/browser fetches, screenshot OCR) are oracle values supplied through
  environment records; each oracle outcome distinguishes a timeout from a
  returned payload exactly where the source distinguishes them.
* Raised Python exceptions are modelled with `Except`; the FastAPI handler
  mapping in `verify_certificate` is modelled by `HTTPException` status codes
  (the formatted `detail` strings are elided).
-/

/-- Whitespace recognised by Python `str.split()` / `str.strip()`
(ASCII range, which covers every string handled by this code base). -/
def pyIsSpace (c : Char) : Bool :=
  c = ' ' ∨ c = '\t' ∨ c = '\n' ∨ c = '\r' ∨ c = '\x0b' ∨ c = '\x0c'

/-- Python `str.lower()` (ASCII case folding; non-ASCII characters appearing
in the data, such as the registered marks in issuer names, are unaffected). -/
def lowerList (s : List Char) : List Char :=
  s.map Char.toLower

/-- Python `str.strip()`: drop leading and trailing whitespace. -/
def stripWs (s : List Char) : List Char :=
  ((s.dropWhile pyIsSpace).reverse.dropWhile pyIsSpace).reverse

/-- Boolean list-prefix test (explicit recursion, decidable by evaluation). -/
def leadsWith : List Char → List Char → Bool
  | [], _ => true
  | _ :: _, [] => false
  | a :: as, b :: bs => a = b && leadsWith as bs

/-- Boolean suffix test: `s` ends with `pat`. -/
def endsWith (s pat : List Char) : Bool :=
  leadsWith pat.reverse s.reverse

/-- Python `pat in s` (substring containment test). -/
def containsSub (s pat : List Char) : Bool :=
  match s with
  | [] => pat = []
  | _ :: rest => leadsWith pat s || containsSub rest pat

/-- Python `s.index(pat)` / `s.find(pat)`: index of the first occurrence of
`pat` in `s`, or `none`. -/
def indexOfSub (s pat : List Char) : Option Nat :=
  match s with
  | [] => if pat = [] then some 0 else none
  | _ :: rest =>
    if leadsWith pat s then some 0
    else (indexOfSub rest pat).map (· + 1)

/-- Python `s.replace(pat, rep)` for nonempty `pat`: replace every
(left-to-right, non-overlapping) occurrence.  The first argument is fuel;
`s.length` always suffices because each step consumes at least one character. -/
def replaceAllAux (pat rep : List Char) : Nat → List Char → List Char
  | 0, s => s
  | _ + 1, [] => []
  | fuel + 1, c :: rest =>
    if pat ≠ [] ∧ leadsWith pat (c :: rest) then
      rep ++ replaceAllAux pat rep fuel (List.drop (pat.length - 1) rest)
    else
      c :: replaceAllAux pat rep fuel rest

/-- Python `s.replace(pat, rep)`. -/
def replaceAll (s pat rep : List Char) : List Char :=
  replaceAllAux pat rep s.length s

/-- Python `s.replace(pat, '')`, used by `urlparse(...).netloc.replace("www.", "")`. -/
def removeAll (s pat : List Char) : List Char :=
  replaceAll s pat []

/-- Helper for `splitWs`: `acc` is the current in-progress word, reversed. -/
def splitWsAux : List Char → List Char → List (List Char)
  | [], acc => if acc = [] then [] else [acc.reverse]
  | c :: rest, acc =>
    if pyIsSpace c then
      (if acc = [] then [] else [acc.reverse]) ++ splitWsAux rest []
    else
      splitWsAux rest (c :: acc)

/-- The words of `s` in order: Python `s.split()` (split on whitespace runs). -/
def splitWs (s : List Char) : List (List Char) :=
  splitWsAux s []

/-- Python `len(s.split())`, the word count used by the completeness heuristic. -/
def wordCount (s : List Char) : Nat :=
  (splitWs s).length

/-- Helper for `dedupKeepOrder`: `seen` collects the keys already emitted. -/
def dedupAux : List (List Char) → List (List Char) → List (List Char)
  | [], _ => []
  | x :: rest, seen =>
    if x ∈ seen then dedupAux rest seen else x :: dedupAux rest (x :: seen)

/-- Stable deduplication, Python `list(dict.fromkeys(urls))`. -/
def dedupKeepOrder (l : List (List Char)) : List (List Char) :=
  dedupAux l []

/-- Round-half-to-even of a rational to an integer, modelling CPython
`round(x)` on the exact values that arise here. -/
def rndHalfEven (q : ℚ) : ℤ :=
  if q - ⌊q⌋ < 1/2 then ⌊q⌋
  else if 1/2 < q - ⌊q⌋ then ⌊q⌋ + 1
  else if (⌊q⌋ % 2 = 0) then ⌊q⌋ else ⌊q⌋ + 1

/-- CPython `round(x, 2)` modelled on rationals. -/
def round2 (q : ℚ) : ℚ :=
  (rndHalfEven (q * 100) : ℚ) / 100

/-! ## Forensics agent (`app/agents/forensics.py`) -/

/-- A successfully parsed LLM forensic opinion, as validated and returned by
`ForensicsAgent._analyze_with_llm` (the free-text `reasoning`/`analysis`
fields do not influence any score or flag and are elided). -/
structure LLMForensics where
  risk_score : ℚ
  confidence : ℚ
deriving DecidableEq, Repr

/-- Embedding of `app/schemas.py` `ForensicsResult` (the `details` evidence list and the
LLM echo fields are elided; `status` keeps the exact source strings, except
that the `" | LLM Insight: ..."` suffix appended when LLM reasoning is present
on a high-risk result is elided together with the reasoning text). -/
structure ForensicsResult where
  manipulation_score : ℚ
  is_high_risk : Bool
  status : String
deriving DecidableEq, Repr

/-- The traditional combined score of `ForensicsAgent.analyze`
(line `combined_score = (ela_score * 0.5) + (noise_score * 0.30) + (quality_score * 0.20)`). -/
def combinedTraditional (ela noise quality : ℚ) : ℚ :=
  ela * 0.5 + noise * 0.30 + quality * 0.20

/-- The LLM adjustment of `ForensicsAgent.analyze`
(line `combined_score = (combined_score * 0.6) + (llm_risk_score * 0.4)`). -/
def adjustWithLLM (combined riskScore : ℚ) : ℚ :=
  combined * 0.6 + riskScore * 0.4

/-- Embedding of `ForensicsAgent.analyze`, embedded from the point where the three detector
sub-scores are available: `ela`, `noise`, `quality` are the values returned by
`_perform_ela`, `_analyze_noise_variance` and `_estimate_compression_quality`
on the input image, `llm_enabled` is `self.llm_enabled`, and `llmOutcome` is
what `_analyze_with_llm` would return if invoked (`none` models a `None`
return after a parse failure or any other internal error).
Returns the `ForensicsResult` together with a flag recording whether the
`_analyze_with_llm` collaborator call was made. -/
def ForensicsAgent.analyzeFrom (llm_enabled : Bool) (ela noise quality : ℚ)
    (llmOutcome : Option LLMForensics) : ForensicsResult × Bool :=
  let combined0 := combinedTraditional ela noise quality
  let llmCalled := llm_enabled
  let llmRes : Option LLMForensics := if llm_enabled then llmOutcome else none
  -- "Adjust combined score based on LLM insight (60% traditional + 40% LLM)"
  let combined : ℚ :=
    match llmRes with
    | some r => adjustWithLLM combined0 r.risk_score
    | none => combined0
  -- "Primary threshold - combined score"
  let hr0 : Bool := if combined > 0.75 then true else false
  -- "Additional strong indicators"
  let hr1 : Bool :=
    if ela > 0.95 then true
    else if combined > 0.65 ∧ ela > 0.75 then true
    else hr0
  -- "LLM override"
  let hr2 : Bool :=
    match llmRes with
    | some r => if r.confidence > 0.85 ∧ r.risk_score > 0.80 then true else hr1
    | none => hr1
  let status :=
    if hr2 then "High Risk - Possible Digital Manipulation Detected"
    else if combined > 0.50 then "Warning - Minor Anomalies Detected"
    else "Pass - Integrity Intact"
  (⟨round2 combined, hr2, status⟩, llmCalled)

/-! ## Orchestrator final verdict (`app/main.py`, stage 4) -/

/-- The final-verdict logic of `verify_certificate` (`app/main.py` lines
98-106), given the forensics and verification stage outputs. -/
def finalVerdict (forensics : ForensicsResult) (isVerified : Bool) : String :=
  if forensics.is_high_risk then "FLAGGED (High Risk)"
  else if isVerified then "VERIFIED"
  else "UNVERIFIED"

/-! ## Extraction agent (`app/agents/ext.py`) -/

/-- Python exception classes raised by `ExtractionAgent.extract` and caught by
the `/verify` route handler. -/
inductive PyErr where
  | valueError
  | timeoutError
  | runtimeError
deriving DecidableEq, Repr

/-- Test that `o` carries a (Python `\d`) digit. -/
def isDigitOpt (o : Option Char) : Bool :=
  match o with
  | some c => c.isDigit
  | none => false

/-- One single-character lookaround substitution pass, modelling a
`re.sub` whose pattern consumes exactly one character with lookbehind and
lookahead context: at every position, `tr prev c next` (with `prev`/`next`
read from the pass input, as Python lookarounds do) either supplies a
replacement character or leaves `c` unchanged. -/
def subFlank (tr : Option Char → Char → Option Char → Option Char) :
    Option Char → List Char → List Char
  | _, [] => []
  | prev, c :: rest => ((tr prev c rest.head?).getD c) :: subFlank tr (some c) rest

/-- Python `re.sub(r'(?<=\d)l(?=\d)', '1', s)`. -/
def ruleLowLBetween (prev : Option Char) (c : Char) (next : Option Char) : Option Char :=
  if c = 'l' ∧ isDigitOpt prev ∧ isDigitOpt next then some '1' else none

/-- Python `re.sub(r'^l(?=\d)', '1', s)`. -/
def ruleLowLStart (prev : Option Char) (c : Char) (next : Option Char) : Option Char :=
  if c = 'l' ∧ prev = none ∧ isDigitOpt next then some '1' else none

/-- Python `re.sub(r'(?<=\d)l$', '1', s)`. -/
def ruleLowLEnd (prev : Option Char) (c : Char) (next : Option Char) : Option Char :=
  if c = 'l' ∧ isDigitOpt prev ∧ next = none then some '1' else none

/-- Python `re.sub(r'(?<=\d)I(?=\d)', '1', s)`. -/
def ruleCapIBetween (prev : Option Char) (c : Char) (next : Option Char) : Option Char :=
  if c = 'I' ∧ isDigitOpt prev ∧ isDigitOpt next then some '1' else none

/-- Python `re.sub(r'O(?=0)', '0', s)`. -/
def ruleOBeforeZero (_prev : Option Char) (c : Char) (next : Option Char) : Option Char :=
  if c = 'O' ∧ next = some '0' then some '0' else none

/-- Python `re.sub(r'(?<=0)O', '0', s)`. -/
def ruleOAfterZero (prev : Option Char) (c : Char) (_next : Option Char) : Option Char :=
  if c = 'O' ∧ prev = some '0' then some '0' else none

/-- The global single-character confusable replacements
`'|'→'1'`, `'é'→'6'`, `'ö'→'o'`, `'ï'→'i'` of `_clean_certificate_id`. -/
def globalConfusable (c : Char) : Char :=
  if c = '|' then '1'
  else if c = 'é' then '6'
  else if c = 'ö' then 'o'
  else if c = 'ï' then 'i'
  else c

/-- Embedding of `ExtractionAgent._clean_certificate_id`.  The guard `if not cert_id`
returns the input unchanged; `''.join(cert_id.split())` removes every
whitespace character; then the global replacements and the six context
substitutions run in source order, each pass reading the previous pass
output (as the consecutive `re.sub` calls do). -/
def cleanCertificateId (s : List Char) : List Char :=
  if s = [] then s
  else
    let c0 := s.filter (fun c => ¬ pyIsSpace c)
    let c1 := c0.map globalConfusable
    let c2 := subFlank ruleLowLBetween none c1
    let c3 := subFlank ruleLowLStart none c2
    let c4 := subFlank ruleLowLEnd none c3
    let c5 := subFlank ruleCapIBetween none c4
    let c6 := subFlank ruleOBeforeZero none c5
    subFlank ruleOAfterZero none c6

/-- The boilerplate phrases stripped by `_clean_issuer_name`, in source order. -/
def phrasesToRemove : List (List Char) :=
  ["issued by".data, "via".data, "powered by".data, "through".data,
   "authorized by".data, "offered through".data, "from".data,
   "in partnership with".data, "in collaboration with".data,
   "certificate by".data]

/-- One phrase-stripping step of `_clean_issuer_name`: when `phrase` occurs in
the lowercased name, keep only the text after its first occurrence, stripped. -/
def cutPhrase (s : List Char) (phrase : List Char) : List Char :=
  let sLower := lowerList s
  if containsSub sLower phrase then
    match indexOfSub sLower phrase with
    | some i => stripWs (s.drop (i + phrase.length))
    | none => s
  else s

/-- Embedding of `ExtractionAgent._clean_issuer_name`: whitespace normalisation
(`' '.join(issuer_name.split())`) followed by the phrase-stripping loop
(the final `.strip()` is a no-op after the per-step strips). -/
def cleanIssuerName (s : List Char) : List Char :=
  if s = [] then s
  else
    let s1 := List.intercalate [' '] (splitWs s)
    phrasesToRemove.foldl cutPhrase s1

/-- Python `s.isdigit()` on ASCII strings. -/
def pyIsDigitStr (s : List Char) : Bool :=
  s ≠ [] && s.all Char.isDigit

/-- Python `s.isalnum()` on ASCII strings. -/
def pyIsAlnumStr (s : List Char) : Bool :=
  s ≠ [] && s.all (fun c => c.isAlpha || c.isDigit)

/-- Embedding of `ExtractionAgent._validate_certificate_id`: issuer-specific shape rules.
`none` models a `None` return (rejected id).  The sequential fall-through of
the source (a Coursera or LinkedIn check that neither accepts nor rejects
falls through to the later checks) is preserved. -/
def validateCertificateId (cert issuer : List Char) : Option (List Char) :=
  if cert = [] then none
  else if issuer = [] then some cert
  else
    let il := lowerList issuer
    if containsSub il ("udemy".data) then
      if leadsWith ("UC-".data) cert ∧ cert.length > 15 then some cert else none
    else if containsSub il ("coursera".data) ∧ cert.length ≥ 12 ∧
        pyIsAlnumStr (cert.filter (· ≠ '-')) then some cert
    else if containsSub il ("coursera".data) ∧ cert.length < 8 then none
    else if containsSub il ("edx".data) then
      if cert.length ≥ 20 then some cert else none
    else if containsSub il ("linkedin".data) ∧ cert.length ≥ 8 then some cert
    else if cert.length ≤ 6 ∧ pyIsDigitStr cert then none
    else some cert

/-- Python `urlparse` reduced to what `_clean_issuer_url` and `is_trusted` consume:
the network location (text between the first `"://"` and the next `/`) and
the path (the remainder).  A URL with no `"://"` has an empty netloc, as in
Python. -/
def urlNetlocPath (u : List Char) : List Char × List Char :=
  match indexOfSub u ("://".data) with
  | some i =>
    let rest := u.drop (i + 3)
    (rest.takeWhile (· ≠ '/'), rest.dropWhile (· ≠ '/'))
  | none => ([], u)

/-- Embedding of `ExtractionAgent._clean_issuer_url`: strip, default the scheme, and expand
the known short-link hosts into canonical verification URL templates. -/
def cleanIssuerUrl (url cert : List Char) : List Char :=
  if url = [] then url
  else
    let u1 := stripWs url
    let u2 := if leadsWith ("http".data) u1 then u1 else ("https://".data) ++ u1
    let domain := lowerList (urlNetlocPath u2).1
    let path := (urlNetlocPath u2).2
    if containsSub domain ("ude.my".data) ∧ cert ≠ [] then
      ("https://www.udemy.com/certificate/".data) ++ cert
    else if containsSub domain ("coursera.org".data) ∧ containsSub path ("verify".data) ∧
        cert ≠ [] then
      ("https://www.coursera.org/verify/".data) ++ cert
    else u2

/-- The certificate-indicator keywords of `_has_critical_data`. -/
def certIndicatorKws : List (List Char) :=
  ["certificate".data, "certify".data, "awarded".data, "completed".data]

/-- The organisation-indicator keywords of `_has_critical_data`. -/
def orgIndicatorKws : List (List Char) :=
  ["udemy".data, "coursera".data, "hubspot".data, "google".data,
   "ibm".data, "microsoft".data, "edx".data, "linkedin".data]

/-- Embedding of `ExtractionAgent._has_critical_data`: the completeness heuristic.
`is_complete = has_name_indicator and has_org_indicator and word_count > 30`;
the `has_id_pattern` regex is computed by the source but only logged, it does
not enter `is_complete`. -/
def hasCriticalData (text : List Char) : Bool :=
  let textLower := lowerList text
  let hasNameIndicator := certIndicatorKws.any (fun w => containsSub textLower w)
  let hasOrgIndicator := orgIndicatorKws.any (fun w => containsSub textLower w)
  hasNameIndicator && hasOrgIndicator && decide (wordCount text > 30)

/-- Embedding of `ExtractionAgent._merge_ocr_results`: keep the EasyOCR text only when it
contributes more than 5 distinct words not present in the Tesseract text. -/
def mergeOcrResults (text1 text2 : List Char) : List Char :=
  if text1 = [] then text2
  else if text2 = [] then text1
  else
    let words1 := splitWs text1
    let uniqueWords2 := (dedupKeepOrder (splitWs text2)).filter (fun w => w ∉ words1)
    if uniqueWords2.length > 5 then text1 ++ '\n' :: text2 else text1

/-- Outcome of one OCR-engine collaborator call (`asyncio.wait_for` around the
engine): either the `asyncio.TimeoutError` branch or the recognised text.
An unavailable EasyOCR reader is the `ok []` outcome (the task returns `""`). -/
inductive OCROutcome where
  | timeout
  | ok (text : List Char)
deriving DecidableEq, Repr

/-- The four fields of the JSON object requested from Mistral, each defaulted
to the empty string when absent (`data.get(k, '')`). -/
structure RawFields where
  candidate_name : List Char
  certificate_id : List Char
  issuer_name : List Char
  issuer_url : List Char
deriving DecidableEq, Repr

/-- Outcome of the Mistral chat call in `extract`: a timeout, or a response
whose JSON payload either parses (through `json.loads` or one of the two
regex fallbacks) into the four requested fields, or is unparseable. -/
inductive MistralOutcome where
  | timeout
  | response (parsed : Option RawFields)
deriving DecidableEq, Repr

/-- Collaborator environment of one `ExtractionAgent.extract` run:
`image_valid` abstracts `_validate_image_bytes` succeeding, `tesseract` and
`easyocr` are the cascade engines (each post-retry final text or a timeout),
`qr` is the decoded QR payload when `_detect_qr_code` finds one, and
`mistral` is the structuring-LLM call outcome. -/
structure ExtEnv where
  image_valid : Bool
  tesseract : OCROutcome
  easyocr : OCROutcome
  qr : Option (List Char)
  mistral : MistralOutcome
deriving DecidableEq, Repr

/-- Embedding of `ExtractionAgent._perform_ocr_cascade`: Tesseract first; EasyOCR invoked
exactly when the completeness heuristic fails on the Tesseract text, its text
merged in when nonempty.  First component: the final cascade text, or the
propagated `TimeoutError` of either engine.  Second component: whether the
EasyOCR collaborator was invoked. -/
def performOcrCascade (env : ExtEnv) : Except PyErr (List Char) × Bool :=
  match env.tesseract with
  | .timeout => (.error .timeoutError, false)
  | .ok tesseractText =>
    let hasEnoughData := hasCriticalData tesseractText
    if hasEnoughData then (.ok tesseractText, false)
    else
      match env.easyocr with
      | .timeout => (.error .timeoutError, true)
      | .ok easyocrText =>
        if easyocrText ≠ [] then (.ok (mergeOcrResults tesseractText easyocrText), true)
        else (.ok tesseractText, true)

/-- The text appended to `raw_text` when a QR payload is decoded in `extract`
(steps marked STEP 3 in the source), including the possible-certificate-id
echo for Udemy-shaped payloads. -/
def qrAnnotation (q : List Char) : List Char :=
  let base := ("\n\n[QR CODE DATA FOUND]: ".data) ++ q
  if containsSub q ("udemy.com".data) ∧ containsSub q ("UC-".data) then
    let segs := q.splitOn '/'
    let seg :=
      if endsWith q ("/".data) then (segs.reverse.drop 1).headD []
      else segs.reverse.headD []
    base ++ ("\n[POSSIBLE CERTIFICATE ID]: ".data) ++ seg
  else base

/-- Helper for whitespace-run collapsing (`re.sub(r'\s+', ' ', s)`); the flag
records whether the previous character was part of a whitespace run. -/
def collapseWsAux : Bool → List Char → List Char
  | _, [] => []
  | inRun, c :: rest =>
    if pyIsSpace c then
      if inRun then collapseWsAux true rest else ' ' :: collapseWsAux true rest
    else c :: collapseWsAux false rest

/-- Python `re.sub(r'\s+', ' ', s)`: collapse every whitespace run to one space. -/
def collapseWs (s : List Char) : List Char :=
  collapseWsAux false s

/-- Constant `MAX_TEXT_SNIPPET_LENGTH` from `ext.py`. -/
def MAX_TEXT_SNIPPET_LENGTH : Nat := 300

/-- The extraction output dictionary (`data`) returned by a successful
`ExtractionAgent.extract` run, after the STEP 6 cleanup and the STEP 7
metadata.  Each field is the string stored under the corresponding key;
`[]` stands for Python `''` and `None` alike (both falsy downstream). -/
structure ExtractionData where
  candidate_name : List Char
  certificate_id : List Char
  issuer_name : List Char
  issuer_url : List Char
  raw_text_snippet : List Char
deriving DecidableEq, Repr

/-- Embedding of `ExtractionAgent.extract`.  Control flow from the source: input
validation raises `ValueError`; a Tesseract, EasyOCR or Mistral timeout
raises `TimeoutError` (re-raised by the `except TimeoutError` arm); an
unparseable Mistral response raises `ValueError`; otherwise the cleaned
field dictionary is returned. -/
def ExtractionAgent.extract (env : ExtEnv) : Except PyErr ExtractionData :=
  if ¬ env.image_valid then .error .valueError
  else
    match (performOcrCascade env).1 with
    | .error e => .error e
    | .ok cascadeText =>
      let rawText :=
        match env.qr with
        | some q => cascadeText ++ qrAnnotation q
        | none => cascadeText
      match env.mistral with
      | .timeout => .error .timeoutError
      | .response none => .error .valueError
      | .response (some d) =>
        let issuerName :=
          if d.issuer_name ≠ [] then cleanIssuerName d.issuer_name else d.issuer_name
        let certificateId :=
          if d.certificate_id ≠ [] then
            match validateCertificateId d.certificate_id issuerName with
            | some c => cleanCertificateId c
            | none => []
          else d.certificate_id
        let issuerUrl :=
          if d.issuer_url ≠ [] then cleanIssuerUrl d.issuer_url certificateId
          else d.issuer_url
        let fullText :=
          collapseWs (rawText.map (fun c => if c = '\n' ∨ c = '\r' then ' ' else c))
        let snippet :=
          if fullText.length > MAX_TEXT_SNIPPET_LENGTH then
            fullText.take MAX_TEXT_SNIPPET_LENGTH ++ ("...".data)
          else fullText
        .ok ⟨d.candidate_name, certificateId, issuerName, issuerUrl, snippet⟩

/-! ## Schemas (`app/schemas.py`) -/

/-- The `IssuerName(str, Enum)` members, in declaration order. -/
inductive IssuerName where
  | coursera | edx | udemy | linkedin_learning | futurelearn | udacity | alison
  | great_learning | simplilearn | pluralsight | skillshare | masterclass
  | codecademy | freecodecamp | swayam | nptel | openlearn | khan_academy
  | upgrad | shaw_academy | open_universities_australia | training_360
  | careerfoundry | simpliaxis | knowledgehut | cognitive_class_ibm | w3schools
  | google_skillshop | ibm | microsoft | aws | hubspot_academy | meta | adobe
  | salesforce_trailhead | cisco | comptia | oracle | sap | palo_alto_networks
  | semrush_academy | apple | intel | sas | tableau | deeplearning_ai | pmi
  | isaca | isc2 | red_hat | vmware | who | linux_foundation | british_council
  | acca | cima | unicef
deriving DecidableEq, Repr

/-- The string value of each `IssuerName` member. -/
def IssuerName.value : IssuerName → List Char
  | .coursera => "Coursera".data
  | .edx => "edX".data
  | .udemy => "Udemy".data
  | .linkedin_learning => "LinkedIn Learning".data
  | .futurelearn => "FutureLearn".data
  | .udacity => "Udacity".data
  | .alison => "Alison".data
  | .great_learning => "Great Learning".data
  | .simplilearn => "Simplilearn".data
  | .pluralsight => "Pluralsight".data
  | .skillshare => "Skillshare".data
  | .masterclass => "MasterClass".data
  | .codecademy => "Codecademy".data
  | .freecodecamp => "freeCodeCamp".data
  | .swayam => "SWAYAM".data
  | .nptel => "NPTEL".data
  | .openlearn => "OpenLearn".data
  | .khan_academy => "Khan Academy".data
  | .upgrad => "upGrad".data
  | .shaw_academy => "Shaw Academy".data
  | .open_universities_australia => "Open Universities Australia".data
  | .training_360 => "360Training".data
  | .careerfoundry => "CareerFoundry".data
  | .simpliaxis => "Simpliaxis".data
  | .knowledgehut => "Knowledgehut".data
  | .cognitive_class_ibm => "Cognitive Class (IBM)".data
  | .w3schools => "W3Schools".data
  | .google_skillshop => "Google Skillshop".data
  | .ibm => "IBM".data
  | .microsoft => "Microsoft".data
  | .aws => "AWS".data
  | .hubspot_academy => "HubSpot Academy".data
  | .meta => "Meta".data
  | .adobe => "Adobe".data
  | .salesforce_trailhead => "Salesforce Trailhead".data
  | .cisco => "Cisco".data
  | .comptia => "CompTIA".data
  | .oracle => "Oracle".data
  | .sap => "SAP".data
  | .palo_alto_networks => "Palo Alto Networks".data
  | .semrush_academy => "Semrush Academy".data
  | .apple => "Apple".data
  | .intel => "Intel".data
  | .sas => "SAS".data
  | .tableau => "Tableau".data
  | .deeplearning_ai => "DeepLearning.AI".data
  | .pmi => "PMI".data
  | .isaca => "ISACA".data
  | .isc2 => "(ISC)²".data
  | .red_hat => "Red Hat".data
  | .vmware => "VMware".data
  | .who => "WHO".data
  | .linux_foundation => "Linux Foundation".data
  | .british_council => "British Council".data
  | .acca => "ACCA".data
  | .cima => "CIMA".data
  | .unicef => "UNICEF".data

/-- Iteration order of `for item in IssuerName` (declaration order). -/
def IssuerName.all : List IssuerName :=
  [.coursera, .edx, .udemy, .linkedin_learning, .futurelearn, .udacity, .alison,
   .great_learning, .simplilearn, .pluralsight, .skillshare, .masterclass,
   .codecademy, .freecodecamp, .swayam, .nptel, .openlearn, .khan_academy,
   .upgrad, .shaw_academy, .open_universities_australia, .training_360,
   .careerfoundry, .simpliaxis, .knowledgehut, .cognitive_class_ibm, .w3schools,
   .google_skillshop, .ibm, .microsoft, .aws, .hubspot_academy, .meta, .adobe,
   .salesforce_trailhead, .cisco, .comptia, .oracle, .sap, .palo_alto_networks,
   .semrush_academy, .apple, .intel, .sas, .tableau, .deeplearning_ai, .pmi,
   .isaca, .isc2, .red_hat, .vmware, .who, .linux_foundation, .british_council,
   .acca, .cima, .unicef]

/-- Length of the longest common prefix of two lists. -/
def commonPre : List Char → List Char → Nat
  | a :: as, b :: bs => if a = b then commonPre as bs + 1 else 0
  | _, _ => 0

/-- Python `difflib.SequenceMatcher.find_longest_match` over whole sequences, in the
junk-free case (which holds throughout this code base: the second sequence is
always shorter than the 200-character autojunk cutoff): the longest matching
block, earliest in `a` and then earliest in `b`, as `(i, j, size)`. -/
def findLongestMatch (a b : List Char) : Nat × Nat × Nat :=
  let cands := (List.range a.length).flatMap
    (fun i => (List.range b.length).map
      (fun j => (i, j, commonPre (a.drop i) (b.drop j))))
  cands.foldl (fun best c => if c.2.2 > best.2.2 then c else best) (0, 0, 0)

/-- Total size of the matching blocks of `difflib.SequenceMatcher`
(`get_matching_blocks` recursion: longest match, then recurse on both sides).
The first argument is fuel; `a.length + b.length` always suffices because
every recursive call strictly shrinks the combined length. -/
def matchSumF : Nat → List Char → List Char → Nat
  | 0, _, _ => 0
  | fuel + 1, a, b =>
    let m := findLongestMatch a b
    let i := m.1
    let j := m.2.1
    let k := m.2.2
    if k = 0 then 0
    else
      matchSumF fuel (a.take i) (b.take j) + k +
      matchSumF fuel (a.drop (i + k)) (b.drop (j + k))

/-- Total matching-block size of `difflib.SequenceMatcher(None, a, b)`. -/
def matchSum (a b : List Char) : Nat :=
  matchSumF (a.length + b.length) a b

/-- Python `difflib.SequenceMatcher(None, a, b).ratio()`: `2.0 * M / T` where `M` is
the total matching-block size and `T` the combined length (`1.0` when both
sequences are empty, as in `_calculate_ratio`). -/
def seqRatio (a b : List Char) : ℚ :=
  if a.length + b.length = 0 then 1
  else 2 * (matchSum a b : ℚ) / ((a.length : ℚ) + (b.length : ℚ))

/-- Embedding of `fuzzy_match_issuer` from `app/schemas.py`: strip and lowercase the raw
issuer, take the best `SequenceMatcher` ratio against the enum values
(declaration order, strict improvement), and accept only at ratio `≥ 0.6`. -/
def fuzzyMatchIssuer (rawIssuer : List Char) : Option IssuerName :=
  if rawIssuer = [] then none
  else
    let cleaned := lowerList (stripWs rawIssuer)
    let best := IssuerName.all.foldl
      (fun (acc : Option IssuerName × ℚ) item =>
        let score := seqRatio cleaned (lowerList item.value)
        if score > acc.2 then (some item, score) else acc)
      (none, 0)
    if best.2 ≥ 0.6 then best.1 else none

/-- The pydantic `field_validator("issuer_name", mode="before")` of
`ExtractionResult`: a raw string is coerced through `fuzzy_match_issuer`
(an empty string behaves like `None`, both yielding `none`). -/
def validateIssuer (value : List Char) : Option IssuerName :=
  fuzzyMatchIssuer value

/-- Embedding of `app/schemas.py` `ExtractionResult` after validation (`certificate_date`
is never set anywhere in the code base and is elided). -/
structure ExtractionResult where
  candidate_name : List Char
  certificate_id : List Char
  issuer_name : Option IssuerName
  issuer_url : List Char
  issuer_org : List Char
  raw_text_snippet : List Char
deriving DecidableEq, Repr

/-- Constructing an `ExtractionResult` from raw (pre-validation) field values,
as `ExtractionResult(**data)` does: the raw issuer string runs through the
`validate_issuer` field validator. -/
def ExtractionResult.construct (candidate certificate issuerRaw issuerUrl
    issuerOrg snippet : List Char) : ExtractionResult :=
  ⟨candidate, certificate, validateIssuer issuerRaw, issuerUrl, issuerOrg, snippet⟩

/-- Embedding of `app/schemas.py` `VerificationResult`. -/
structure VerificationResult where
  is_verified : Bool
  trusted_domain : Bool
  confidence_score : ℚ
  verification_url : Option (List Char)
  method : String
  message : String
deriving DecidableEq, Repr

/-! ## Trusted-source registry (`app/agents/verification/sources.py`) -/

/-- Embedding of `TrustedSourceRegistry` state after `_load_sources`: the trusted-domain
set and the organisation-name → verification-URL map (keys lowercased).
Modelled as lists; CSV rows, when the file loads, add further entries on top
of the hardcoded defaults. -/
structure TrustedSourceRegistry where
  trusted_domains : List (List Char)
  org_map : List (List Char × List Char)
deriving DecidableEq, Repr

/-- The hardcoded default trusted domains of `_load_sources`. -/
def defaultTrustedDomains : List (List Char) :=
  ["ude.my".data, "udemy.com".data, "coursera.org".data, "edx.org".data,
   "credentials.edx.org".data, "linkedin.com".data, "google.com".data,
   "skillshop.exceedlms.com".data, "credly.com".data]

/-- The registry as loaded when the CSV file is unavailable (`_load_sources`
catches the exception and keeps the defaults, with an empty org map). -/
def defaultRegistry : TrustedSourceRegistry :=
  ⟨defaultTrustedDomains, []⟩

/-- Embedding of `TrustedSourceRegistry.is_trusted`: lowercase the URL host, delete every
occurrence of `"www."` (`str.replace`), and pass when the resulting domain is
a trusted domain or ends with `"."` followed by one. -/
def TrustedSourceRegistry.isTrusted (reg : TrustedSourceRegistry)
    (url : List Char) : Bool :=
  let domain := removeAll (lowerList (urlNetlocPath url).1) ("www.".data)
  decide (domain ∈ reg.trusted_domains) ||
    reg.trusted_domains.any (fun t => endsWith domain ('.' :: t))

/-- The trust gate as the specification sentence words it, for comparison with
`TrustedSourceRegistry.isTrusted`: strip one leading `"www."` from the host
and pass on exact membership or a dotted-suffix match. -/
def specTrustGate (reg : TrustedSourceRegistry) (url : List Char) : Bool :=
  let host := lowerList (urlNetlocPath url).1
  let domain := if leadsWith ("www.".data) host then host.drop 4 else host
  decide (domain ∈ reg.trusted_domains) ||
    reg.trusted_domains.any (fun t => endsWith domain ('.' :: t))

/-- The `URL_PATTERNS` table of `sources.py`, in insertion order. -/
def URL_PATTERNS : List (List Char × List (List Char)) :=
  [("coursera".data,
    ["https://www.coursera.org/verify/\x7bcert_id\x7d".data,
     "https://www.coursera.org/account/accomplishments/certificate/\x7bcert_id\x7d".data]),
   ("udemy".data,
    ["https://www.udemy.com/certificate/\x7bcert_id\x7d".data,
     "https://ude.my/\x7bcert_id\x7d".data]),
   ("edx".data,
    ["https://credentials.edx.org/credentials/\x7bcert_id\x7d".data]),
   ("linkedin".data,
    ["https://www.linkedin.com/learning/certificates/\x7bcert_id\x7d".data]),
   ("google".data,
    ["https://skillshop.exceedlms.com/student/award/\x7bcert_id\x7d".data]),
   ("ibm".data,
    ["https://www.credly.com/badges/\x7bcert_id\x7d".data,
     "https://www.credly.com/organizations/ibm/badges/\x7bcert_id\x7d".data]),
   ("microsoft".data,
    ["https://learn.microsoft.com/en-us/users/\x7bcert_id\x7d".data]),
   ("credly".data,
    ["https://www.credly.com/badges/\x7bcert_id\x7d".data])]

/-- Embedding of `TrustedSourceRegistry.generate_urls`: extracted URL first, then the CSV
lookup hit, then the first matching platform pattern set (`break` after the
first `platform in org_lower` hit), deduplicated preserving order. -/
def TrustedSourceRegistry.generateUrls (reg : TrustedSourceRegistry)
    (url certId orgName : List Char) : List (List Char) :=
  let urls0 := if url ≠ [] then [url] else []
  let urls1 :=
    if orgName ≠ [] ∧ certId ≠ [] then
      let orgLower := lowerList orgName
      let csvUrls :=
        match reg.org_map.lookup orgLower with
        | some base =>
          [if endsWith base ("/".data) then base ++ certId else base ++ '/' :: certId]
        | none => []
      let patUrls :=
        match URL_PATTERNS.find? (fun p => containsSub orgLower p.1) with
        | some p => p.2.map (fun pat => replaceAll pat ("\x7bcert_id\x7d".data) certId)
        | none => []
      urls0 ++ csvUrls ++ patUrls
    else urls0
  dedupKeepOrder urls1

/-! ## Verification service (`app/agents/verification/service.py`, with the
visual fallback of `visual.py` and the fetch collaborators of `scanner.py`
as oracles) -/

/-- A lowercase-alphanumeric-or-whitespace character, the class kept by
`re.sub(r'[^a-z0-9\s]', '', s.lower())`. -/
def keepAlnumSpace (c : Char) : Bool :=
  ('a' ≤ c ∧ c ≤ 'z') || c.isDigit || pyIsSpace c

/-- Embedding of `VerificationService._fuzzy_match`: normalise both strings, score `1.0`
on containment, otherwise the `SequenceMatcher` ratio against the threshold
(default `0.7`). -/
def serviceFuzzyMatch (candidate pageText : List Char) (threshold : ℚ) :
    Bool × ℚ :=
  if candidate = [] ∨ pageText = [] then (false, 0)
  else
    let candClean := (lowerList candidate).filter keepAlnumSpace
    let textClean := (lowerList pageText).filter keepAlnumSpace
    if containsSub textClean candClean then (true, 1)
    else
      let r := seqRatio candClean textClean
      (decide (r ≥ threshold), r)

/-- Embedding of `VisualVerifier.verify_screenshot` given the OCR collaborator output on
the screenshot (`none` models the exception branch returning
`(False, 0.0, "")`): containment of the cleaned name in the lowercased OCR
text scores `1.0`; otherwise the name is matched against the longest-match
fragment of the text with acceptance threshold `0.65`. -/
def verifyScreenshot (candidate : List Char) (ocrText : Option (List Char)) :
    Bool × ℚ :=
  match ocrText with
  | none => (false, 0)
  | some extracted =>
    let cleanText := lowerList extracted
    let cleanName := (lowerList candidate).filter keepAlnumSpace
    if containsSub cleanText cleanName then (true, 1)
    else
      let m := findLongestMatch cleanName cleanText
      let fragment := (cleanText.drop m.2.1).take m.2.2
      let r := seqRatio cleanName fragment
      (decide (r ≥ 0.65), r)

/-- One `fetch_page_text` collaborator outcome: the page text (`none` for a
`None` return) and whether a screenshot was captured (`screenshot_path` is
truthy). -/
structure FetchResult where
  text : Option (List Char)
  screenshot : Bool
deriving DecidableEq, Repr

/-- Collaborator environment of one `VerificationService.verify` run: the
successive `fetch_page_text` outcomes and the successive screenshot-OCR
outcomes, each consumed in call order. -/
structure VerifEnv where
  fetches : List FetchResult
  visuals : List (Option (List Char))
deriving DecidableEq, Repr

/-- Consume the next fetch outcome (an exhausted oracle yields a fetch that
returned nothing, `(None, None)`). -/
def popFetch (env : VerifEnv) : FetchResult × VerifEnv :=
  match env.fetches with
  | [] => (⟨none, false⟩, env)
  | f :: rest => (f, ⟨rest, env.visuals⟩)

/-- Consume the next screenshot-OCR outcome. -/
def popVisual (env : VerifEnv) : Option (List Char) × VerifEnv :=
  match env.visuals with
  | [] => (none, env)
  | v :: rest => (v, ⟨env.fetches, rest⟩)

/-- The Smart Verification Loop of `VerificationService.verify` (section D):
per candidate URL, fast fetch and text match, browser retry when the text
match failed with no screenshot yet, then the visual fallback; first accepted
match exits early with its method tag.  `bestUrl` is `urls[0]` (the variable
`best_url` is never reassigned in the source).  Returns the result together
with the total number of `fetch_page_text` collaborator calls.  The dynamic
`Match: {...}` percentage suffixes of the messages are elided. -/
def verifyLoop (candidate bestUrl : List Char) :
    List (List Char) → VerifEnv → ℚ → Nat → VerificationResult × Nat
  | [], _, best, cnt =>
    (⟨false, true, round2 best, some bestUrl, "failed", "Verification failed."⟩, cnt)
  | url :: rest, env, best, cnt =>
    let p1 := popFetch env
    let f1 := p1.1
    let env1 := p1.2
    let cnt1 := cnt + 1
    -- 2. Check Text Match
    let t1ok : Bool := match f1.text with | some t => t ≠ [] | none => false
    let m1 := if t1ok then serviceFuzzyMatch candidate (f1.text.getD []) 0.7 else (false, 0)
    let best1 := if t1ok ∧ m1.2 > best then m1.2 else best
    if t1ok ∧ m1.1 then
      (⟨true, true, round2 m1.2, some url, "dom_text_match", "Verified via text."⟩, cnt1)
    else
      -- 3. Smart retry: text match failed and no screenshot yet
      let doRetry : Bool := best1 < 0.7 ∧ f1.screenshot = false
      let p2 := if doRetry then popFetch env1 else (f1, env1)
      let f2 := p2.1
      let env2 := p2.2
      let cnt2 := if doRetry then cnt1 + 1 else cnt1
      let t2ok : Bool := match f2.text with | some t => t ≠ [] | none => false
      let m2 := if doRetry ∧ t2ok then serviceFuzzyMatch candidate (f2.text.getD []) 0.7
        else (false, 0)
      let best2 := if doRetry ∧ t2ok ∧ m2.2 > best1 then m2.2 else best1
      if doRetry ∧ t2ok ∧ m2.1 then
        (⟨true, true, round2 m2.2, some url, "dom_text_match_retry",
          "Verified via browser text."⟩, cnt2)
      else
        -- 4. Visual fallback on the current screenshot
        if f2.screenshot then
          let pv := popVisual env2
          let v := verifyScreenshot candidate pv.1
          let env3 := pv.2
          let best3 := if v.2 > best2 then v.2 else best2
          if v.1 then
            (⟨true, true, round2 v.2, some url, "visual_ocr",
              "Verified via visual OCR."⟩, cnt2)
          else verifyLoop candidate bestUrl rest env3 best3 cnt2
        else verifyLoop candidate bestUrl rest env2 best2 cnt2

/-- Embedding of `VerificationService.verify`: validation, URL generation, trust check,
then the smart verification loop over the first two candidates.  Returns the
`VerificationResult` and the number of `fetch_page_text` network calls
performed. -/
def VerificationService.verify (reg : TrustedSourceRegistry) (env : VerifEnv)
    (data : ExtractionResult) : VerificationResult × Nat :=
  -- A. Validation
  if data.candidate_name = [] then
    (⟨false, false, 0, none, "validation_error", "No candidate name."⟩, 0)
  else
    -- B. Get URLs
    let orgNameStr :=
      match data.issuer_name with
      | some i => i.value
      | none => data.issuer_org
    let urls := reg.generateUrls data.issuer_url data.certificate_id orgNameStr
    match urls with
    | [] => (⟨false, false, 0, none, "url_error", "No URL generated."⟩, 0)
    | u0 :: _ =>
      -- C. Trust Check
      if ¬ reg.isTrusted u0 then
        (⟨false, false, 0, some u0, "security_check", "Untrusted domain."⟩, 0)
      else
        -- D. Smart Verification Loop
        verifyLoop data.candidate_name u0 (urls.take 2) env 0 0

/-! ## Orchestrator (`app/main.py`) -/

/-- A raised `fastapi.HTTPException` (only the status code is modelled; the
formatted `detail` strings are elided). -/
structure HTTPException where
  status_code : Nat
deriving DecidableEq, Repr

/-- Embedding of `app/schemas.py` `CertificateAnalysisResponse` (the echoed upload
`filename` is elided). -/
structure CertificateAnalysisResponse where
  final_verdict : String
  forensics : ForensicsResult
  extraction : ExtractionResult
  verification : VerificationResult
deriving DecidableEq, Repr

/-- The `/verify` route `verify_certificate` from the image branch onward:
forensics (whose `analyze` catches every internal exception and returns an
error-result, so it is passed here as its result), extraction, verification,
and the final-verdict logic, with the route-level exception mapping
`ValueError → 400`, `TimeoutError → 504`, anything else `→ 500`. -/
def verifyCertificate (forensicsData : ForensicsResult)
    (reg : TrustedSourceRegistry) (eenv : ExtEnv) (venv : VerifEnv) :
    Except HTTPException CertificateAnalysisResponse :=
  match ExtractionAgent.extract eenv with
  | .error .valueError => .error ⟨400⟩
  | .error .timeoutError => .error ⟨504⟩
  | .error .runtimeError => .error ⟨500⟩
  | .ok d =>
    let extractionResult := ExtractionResult.construct d.candidate_name
      d.certificate_id d.issuer_name d.issuer_url [] d.raw_text_snippet
    let vr := (VerificationService.verify reg venv extractionResult).1
    .ok ⟨finalVerdict forensicsData vr.is_verified, forensicsData,
      extractionResult, vr⟩

/-! ## Predicates used by the statements -/

/-- Predicate `noFire tr prev s`: the lookaround substitution `tr` matches at no
position of `s` (with `prev` the character before `s`, if any). -/
def noFire (tr : Option Char → Char → Option Char → Option Char) :
    Option Char → List Char → Bool
  | _, [] => true
  | prev, c :: rest => (tr prev c rest.head? = none) && noFire tr (some c) rest

/-- An already-clean certificate id: no whitespace, none of the globally
replaced confusable characters, and none of the six context substitutions of
`_clean_certificate_id` applicable anywhere. -/
def isCleanCertId (s : List Char) : Bool :=
  s.all (fun c => ¬ pyIsSpace c && globalConfusable c = c) &&
  noFire ruleLowLBetween none s && noFire ruleLowLStart none s &&
  noFire ruleLowLEnd none s && noFire ruleCapIBetween none s &&
  noFire ruleOBeforeZero none s && noFire ruleOAfterZero none s

/-! ## Helper lemmas -/

theorem rndHalfEven_nonneg (q : ℚ) (h : 0 ≤ q) : 0 ≤ rndHalfEven q := by
  unfold rndHalfEven
  have h0 : (0 : ℤ) ≤ ⌊q⌋ := by
    rw [Int.le_floor]
    simpa using h
  split_ifs <;> omega

theorem rndHalfEven_le_of_le (q : ℚ) (n : ℤ) (h : q ≤ n) : rndHalfEven q ≤ n := by
  unfold rndHalfEven
  have hfl : ⌊q⌋ ≤ n := by
    have := Int.floor_le_floor h
    rwa [Int.floor_intCast] at this
  have hq : (⌊q⌋ : ℚ) ≤ q := Int.floor_le q
  split_ifs with hf1 hf2 hf3
  · exact hfl
  · by_contra hcon
    push_neg at hcon
    have hn : n ≤ ⌊q⌋ := by omega
    have hnq : (n : ℚ) ≤ (⌊q⌋ : ℚ) := by exact_mod_cast hn
    simp only at hf2
    linarith
  · exact hfl
  · by_contra hcon
    push_neg at hcon
    have hn : n ≤ ⌊q⌋ := by omega
    have hnq : (n : ℚ) ≤ (⌊q⌋ : ℚ) := by exact_mod_cast hn
    have heq : q - ⌊q⌋ = 1/2 := le_antisymm (not_lt.mp hf2) (not_lt.mp hf1)
    linarith

theorem round2_nonneg (q : ℚ) (h : 0 ≤ q) : 0 ≤ round2 q := by
  unfold round2
  have := rndHalfEven_nonneg (q * 100) (by linarith)
  have hc : (0 : ℚ) ≤ (rndHalfEven (q * 100) : ℚ) := by exact_mod_cast this
  linarith

theorem round2_le_one (q : ℚ) (h : q ≤ 1) : round2 q ≤ 1 := by
  unfold round2
  have := rndHalfEven_le_of_le (q * 100) 100 (by push_cast; linarith)
  have hc : ((rndHalfEven (q * 100)) : ℚ) ≤ 100 := by exact_mod_cast this
  linarith

theorem combinedTraditional_bounds (ela noise quality : ℚ)
    (h1 : 0 ≤ ela) (h2 : ela ≤ 1) (h3 : 0 ≤ noise) (h4 : noise ≤ 1)
    (h5 : 0 ≤ quality) (h6 : quality ≤ 1) :
    0 ≤ combinedTraditional ela noise quality ∧
      combinedTraditional ela noise quality ≤ 1 := by
  unfold combinedTraditional
  constructor <;> nlinarith

theorem adjustWithLLM_bounds (c r : ℚ) (hc1 : 0 ≤ c) (hc2 : c ≤ 1)
    (hr1 : 0 ≤ r) (hr2 : r ≤ 1) :
    0 ≤ adjustWithLLM c r ∧ adjustWithLLM c r ≤ 1 := by
  unfold adjustWithLLM
  constructor <;> nlinarith

/-! ## Claims -/

/-- C2: whenever the forensics result has `is_high_risk` set — in particular
whenever the ELA sub-score exceeds `0.95`, which forces it regardless of the
LLM stage — the orchestrator final verdict is the FLAGGED one, even when the
verification stage reported `is_verified` (the verdict branch on
`is_high_risk` precedes the `is_verified` branch). -/
theorem c2_high_ela_forces_flagged (en : Bool) (ela noise quality : ℚ)
    (o : Option LLMForensics) (isVerified : Bool) (h : ela > 0.95) :
    (ForensicsAgent.analyzeFrom en ela noise quality o).1.is_high_risk = true ∧
    finalVerdict (ForensicsAgent.analyzeFrom en ela noise quality o).1 isVerified =
      "FLAGGED (High Risk)" := by
  have hhr : (ForensicsAgent.analyzeFrom en ela noise quality o).1.is_high_risk = true := by
    unfold ForensicsAgent.analyzeFrom
    cases en <;> cases o <;> simp [h]
  refine ⟨hhr, ?_⟩
  unfold finalVerdict
  rw [hhr]
  simp

/-- C2 witness at a concrete input. -/
theorem c2_high_ela_forces_flagged_witness :
    (0.96 : ℚ) > 0.95 ∧
    ((ForensicsAgent.analyzeFrom false 0.96 0 0 none).1.is_high_risk = true ∧
     finalVerdict (ForensicsAgent.analyzeFrom false 0.96 0 0 none).1 true =
       "FLAGGED (High Risk)") :=
  ⟨by norm_num, c2_high_ela_forces_flagged false 0.96 0 0 none true (by norm_num)⟩

/-- C3 counterexample: the source never range-checks the LLM risk score, so a
deep/LLM return of `2.0` drives the fused score (and the stored
`manipulation_score`) above `1`: the claimed invariant fails for values the
collaborator may return. -/
theorem c3_counterexample :
    adjustWithLLM (combinedTraditional 0.5 0.5 0.5) 2 > 1 ∧
    (ForensicsAgent.analyzeFrom true 0.5 0.5 0.5
      (some ⟨2, 0⟩)).1.manipulation_score > 1 := by
  constructor
  · unfold adjustWithLLM combinedTraditional
    norm_num
  · with_unfolding_all decide

/-- C3 amended: the fused `manipulation_score` lies in `[0, 1]` provided the
three detector sub-scores and the LLM risk score (when one is used) lie in
`[0, 1]`; without that proviso on the LLM risk score the invariant fails
(see the counterexample). -/
theorem c3_fused_score_bounded (en : Bool) (ela noise quality : ℚ)
    (o : Option LLMForensics)
    (h1 : 0 ≤ ela) (h2 : ela ≤ 1) (h3 : 0 ≤ noise) (h4 : noise ≤ 1)
    (h5 : 0 ≤ quality) (h6 : quality ≤ 1)
    (h7 : ∀ r, o = some r → 0 ≤ r.risk_score ∧ r.risk_score ≤ 1) :
    0 ≤ (ForensicsAgent.analyzeFrom en ela noise quality o).1.manipulation_score ∧
    (ForensicsAgent.analyzeFrom en ela noise quality o).1.manipulation_score ≤ 1 := by
  have hc0 := combinedTraditional_bounds ela noise quality h1 h2 h3 h4 h5 h6
  cases en with
  | false =>
    unfold ForensicsAgent.analyzeFrom
    simp only
    exact ⟨round2_nonneg _ hc0.1, round2_le_one _ hc0.2⟩
  | true =>
    cases o with
    | none =>
      unfold ForensicsAgent.analyzeFrom
      simp only
      exact ⟨round2_nonneg _ hc0.1, round2_le_one _ hc0.2⟩
    | some r =>
      have hr := h7 r rfl
      have hadj := adjustWithLLM_bounds (combinedTraditional ela noise quality)
        r.risk_score hc0.1 hc0.2 hr.1 hr.2
      unfold ForensicsAgent.analyzeFrom
      simp only
      exact ⟨round2_nonneg _ hadj.1, round2_le_one _ hadj.2⟩

/-- C3 witness at a concrete input. -/
theorem c3_fused_score_bounded_witness :
    ((0 : ℚ) ≤ 0.5 ∧ (0.5 : ℚ) ≤ 1) ∧
    (0 ≤ (ForensicsAgent.analyzeFrom true 0.5 0.5 0.5
        (some ⟨0.5, 0.5⟩)).1.manipulation_score ∧
      (ForensicsAgent.analyzeFrom true 0.5 0.5 0.5
        (some ⟨0.5, 0.5⟩)).1.manipulation_score ≤ 1) :=
  ⟨⟨by norm_num, by norm_num⟩,
    c3_fused_score_bounded true 0.5 0.5 0.5 (some ⟨0.5, 0.5⟩)
      (by norm_num) (by norm_num) (by norm_num) (by norm_num) (by norm_num)
      (by norm_num)
      (fun r hr => by
        cases hr
        exact ⟨by norm_num, by norm_num⟩)⟩

/-- C4 counterexample: the risk tiers in the source sit at `0.75`
(`is_high_risk = combined_score > 0.75`) and `0.50` (warning), not at the
claimed `0.65` and `0.4`: a fused score of `0.7` (above the claimed high-risk
cutoff) is only a warning, and a fused score of `0.45` (inside the claimed
warning band) passes. -/
theorem c4_counterexample :
    (combinedTraditional 0.7 0.7 0.7 > 0.65 ∧
      (ForensicsAgent.analyzeFrom false 0.7 0.7 0.7 none).1.is_high_risk = false ∧
      (ForensicsAgent.analyzeFrom false 0.7 0.7 0.7 none).1.status =
        "Warning - Minor Anomalies Detected") ∧
    (combinedTraditional 0.45 0.45 0.45 > 0.4 ∧
      combinedTraditional 0.45 0.45 0.45 ≤ 0.65 ∧
      (ForensicsAgent.analyzeFrom false 0.45 0.45 0.45 none).1.status =
        "Pass - Integrity Intact") := by
  refine ⟨⟨?_, ?_, ?_⟩, ⟨?_, ?_, ?_⟩⟩ <;> with_unfolding_all decide

/-- C4 amended: on the statistical-only path (LLM disabled) and with the ELA
sub-score at most `0.75` (so that neither ELA override fires), the tier is
determined by the fused score with thresholds `0.75` and `0.50`: strictly
above `0.75` is high-risk, in `(0.50, 0.75]` a warning, and at most `0.50`
a pass. -/
theorem c4_risk_tiers (ela noise quality : ℚ) (hela : ela ≤ 0.75) :
    ((ForensicsAgent.analyzeFrom false ela noise quality none).1.is_high_risk = true ↔
      combinedTraditional ela noise quality > 0.75) ∧
    ((ForensicsAgent.analyzeFrom false ela noise quality none).1.status =
        "Warning - Minor Anomalies Detected" ↔
      (combinedTraditional ela noise quality ≤ 0.75 ∧
        combinedTraditional ela noise quality > 0.50)) ∧
    ((ForensicsAgent.analyzeFrom false ela noise quality none).1.status =
        "Pass - Integrity Intact" ↔
      combinedTraditional ela noise quality ≤ 0.50) := by
  have hela95 : ¬ (ela > 0.95) := by intro hgt; linarith
  have hB : ¬ (combinedTraditional ela noise quality > 0.65 ∧ ela > 0.75) := by
    rintro ⟨_, hgt⟩; linarith
  simp only [ForensicsAgent.analyzeFrom, Bool.false_eq_true, if_false]
  rw [if_neg hela95, if_neg hB]
  by_cases h75 : combinedTraditional ela noise quality > 0.75
  · have h50 : combinedTraditional ela noise quality > 0.50 := by linarith
    simp only [if_pos h75, if_pos h50]
    simp
    exact ⟨h75, fun h => by linarith, h50⟩
  · by_cases h50 : combinedTraditional ela noise quality > 0.50
    · simp only [if_neg h75, if_pos h50]
      simp
      exact ⟨by linarith, h50⟩
    · simp only [if_neg h75, if_neg h50]
      simp
      exact ⟨by linarith, fun _ => by linarith, by linarith⟩

/-- C4 witness at a concrete input. -/
theorem c4_risk_tiers_witness :
    (0.6 : ℚ) ≤ 0.75 ∧
    (((ForensicsAgent.analyzeFrom false 0.6 0.6 0.6 none).1.is_high_risk = true ↔
        combinedTraditional 0.6 0.6 0.6 > 0.75) ∧
      ((ForensicsAgent.analyzeFrom false 0.6 0.6 0.6 none).1.status =
          "Warning - Minor Anomalies Detected" ↔
        (combinedTraditional 0.6 0.6 0.6 ≤ 0.75 ∧
          combinedTraditional 0.6 0.6 0.6 > 0.50)) ∧
      ((ForensicsAgent.analyzeFrom false 0.6 0.6 0.6 none).1.status =
          "Pass - Integrity Intact" ↔
        combinedTraditional 0.6 0.6 0.6 ≤ 0.50)) :=
  ⟨by norm_num, c4_risk_tiers 0.6 0.6 0.6 (by norm_num)⟩

/-- C5 counterexample: with the LLM enabled, the deep/LLM stage is invoked
even when the statistical score is far below the claimed escalation threshold
`0.4` and the ELA sub-score is far below the claimed hard indicator `0.95` —
`analyze` has no score gate at all in front of `_analyze_with_llm`. -/
theorem c5_counterexample :
    (ForensicsAgent.analyzeFrom true 0 0 0 (some ⟨0, 0⟩)).2 = true ∧
    combinedTraditional 0 0 0 ≤ 0.4 ∧ (0 : ℚ) ≤ 0.95 := by
  refine ⟨rfl, ?_, ?_⟩
  · unfold combinedTraditional; norm_num
  · norm_num

/-- C5 amended: the deep/LLM stage of `ForensicsAgent.analyze` is invoked
exactly when the LLM is enabled (`self.llm_enabled`), unconditionally on the
statistical score and on the ELA sub-score: there is no escalation threshold
in this agent. -/
theorem c5_llm_invocation_iff_enabled (en : Bool) (ela noise quality : ℚ)
    (o : Option LLMForensics) :
    (ForensicsAgent.analyzeFrom en ela noise quality o).2 = en := rfl

/-- C6: in the extraction cascade, EasyOCR is invoked exactly when the
Tesseract text fails the completeness heuristic — when it lacks a
certificate-indicator keyword, or lacks an organisation-name keyword, or its
word count does not exceed 30; when the heuristic passes, EasyOCR is
skipped. -/
theorem c6_easyocr_iff_incomplete (env : ExtEnv) (t : List Char)
    (h : env.tesseract = .ok t) :
    (performOcrCascade env).2 = true ↔
      ¬ (certIndicatorKws.any (fun w => containsSub (lowerList t) w) = true ∧
         orgIndicatorKws.any (fun w => containsSub (lowerList t) w) = true ∧
         wordCount t > 30) := by
  rcases env with ⟨iv, tes, easy, qr, mis⟩
  simp only at h
  subst h
  have hflag : (performOcrCascade ⟨iv, .ok t, easy, qr, mis⟩).2 = !(hasCriticalData t) := by
    unfold performOcrCascade
    by_cases hc : hasCriticalData t
    · simp [hc]
    · cases easy with
      | timeout => simp [hc]
      | ok e => by_cases he : e ≠ [] <;> simp [hc, he]
  rw [hflag]
  unfold hasCriticalData
  simp only [Bool.not_eq_true', Bool.and_eq_true, decide_eq_true_eq]
  constructor
  · intro hfalse hand
    rw [hand.1, hand.2.1] at hfalse
    simp at hfalse
    omega
  · intro hnot
    by_contra hne
    rw [Bool.not_eq_false] at hne
    rw [Bool.and_eq_true, Bool.and_eq_true] at hne
    exact hnot ⟨hne.1.1, hne.1.2, by simpa using hne.2⟩

/-- C6 witness at a concrete input. -/
theorem c6_easyocr_iff_incomplete_witness :
    (ExtEnv.mk true (.ok ("certificate udemy".data)) (.ok []) none .timeout).tesseract =
      .ok ("certificate udemy".data) ∧
    ((performOcrCascade
        ⟨true, .ok ("certificate udemy".data), .ok [], none, .timeout⟩).2 = true ↔
      ¬ (certIndicatorKws.any
            (fun w => containsSub (lowerList ("certificate udemy".data)) w) = true ∧
         orgIndicatorKws.any
            (fun w => containsSub (lowerList ("certificate udemy".data)) w) = true ∧
         wordCount ("certificate udemy".data) > 30)) :=
  ⟨rfl, c6_easyocr_iff_incomplete _ _ rfl⟩

/-- C7 counterexample: `is_trusted` deletes every occurrence of `"www."` from
the host (`str.replace`), not just a leading one.  For the host
`awww.coursera.org` the claimed gate (leading `"www."` stripped, then exact or
dotted-suffix match) accepts — the host ends with `".coursera.org"` — but the
code deletes the inner `"www."`, producing `acoursera.org`, and rejects. -/
theorem c7_counterexample :
    specTrustGate defaultRegistry ("https://awww.coursera.org/verify/x".data) = true ∧
    TrustedSourceRegistry.isTrusted defaultRegistry
      ("https://awww.coursera.org/verify/x".data) = false := by
  constructor <;> with_unfolding_all decide

/-- C7 amended: the trust gate accepts a URL exactly when its lowercased host
with every occurrence of `"www."` deleted equals a trusted domain or ends
with `"."` followed by one; and a first candidate URL failing the gate makes
`verify` return the untrusted-domain result immediately, with zero
`fetch_page_text` network calls performed. -/
theorem c7_trust_gate :
    (∀ (reg : TrustedSourceRegistry) (url : List Char),
      reg.isTrusted url = true ↔
        (removeAll (lowerList (urlNetlocPath url).1) ("www.".data) ∈
            reg.trusted_domains ∨
          ∃ t ∈ reg.trusted_domains,
            endsWith (removeAll (lowerList (urlNetlocPath url).1) ("www.".data))
              ('.' :: t) = true)) ∧
    (∀ (reg : TrustedSourceRegistry) (env : VerifEnv) (data : ExtractionResult)
        (u0 : List Char) (rest : List (List Char)),
      data.candidate_name ≠ [] →
      reg.generateUrls data.issuer_url data.certificate_id
          (match data.issuer_name with
           | some i => i.value
           | none => data.issuer_org) = u0 :: rest →
      reg.isTrusted u0 = false →
      VerificationService.verify reg env data =
        (⟨false, false, 0, some u0, "security_check", "Untrusted domain."⟩, 0)) := by
  constructor
  · intro reg url
    unfold TrustedSourceRegistry.isTrusted
    simp [List.any_eq_true]
  · intro reg env data u0 rest hname hurls htrust
    unfold VerificationService.verify
    rw [if_neg hname]
    simp only [hurls, htrust]
    simp

/-- C7 witness at a concrete input: an extraction result whose only candidate
URL has an untrusted host short-circuits the cascade with no fetch. -/
theorem c7_trust_gate_witness :
    (ExtractionResult.mk ("John Smith".data) [] none ("https://evil.example.com/c".data)
        [] []).candidate_name ≠ [] ∧
    defaultRegistry.generateUrls ("https://evil.example.com/c".data) [] [] =
      [("https://evil.example.com/c".data)] ∧
    defaultRegistry.isTrusted ("https://evil.example.com/c".data) = false ∧
    VerificationService.verify defaultRegistry ⟨[], []⟩
      (ExtractionResult.mk ("John Smith".data) [] none ("https://evil.example.com/c".data)
        [] []) =
      (⟨false, false, 0, some ("https://evil.example.com/c".data), "security_check",
        "Untrusted domain."⟩, 0) := by
  refine ⟨?_, ?_, ?_, ?_⟩
  · with_unfolding_all decide
  · with_unfolding_all decide
  · with_unfolding_all decide
  · exact c7_trust_gate.2 defaultRegistry ⟨[], []⟩
      (ExtractionResult.mk ("John Smith".data) [] none ("https://evil.example.com/c".data) [] [])
      ("https://evil.example.com/c".data) []
      (by with_unfolding_all decide)
      (by with_unfolding_all decide)
      (by with_unfolding_all decide)

theorem listMapEqSelf (f : Char → Char) :
    ∀ s : List Char, (∀ c ∈ s, f c = c) → s.map f = s
  | [], _ => rfl
  | c :: rest, h => by
    simp only [List.map_cons, h c (by simp)]
    rw [listMapEqSelf f rest (fun d hd => h d (by simp [hd]))]

theorem subFlank_eq_self (tr : Option Char → Char → Option Char → Option Char) :
    ∀ (s : List Char) (prev : Option Char),
      noFire tr prev s = true → subFlank tr prev s = s
  | [], _, _ => rfl
  | c :: rest, prev, h => by
    unfold noFire at h
    rw [Bool.and_eq_true] at h
    unfold subFlank
    rw [show tr prev c rest.head? = none by simpa using h.1]
    simp only [Option.getD_none]
    rw [subFlank_eq_self tr rest (some c) h.2]

/-- C8 counterexample: certificate-id cleanup is not idempotent.  On `"OO0"`
the first pass turns only the second `O` into `0` (the `O(?=0)` lookahead
reads the original text), giving `"O00"`; a second pass then also converts
the first `O`, giving `"000"`. -/
theorem c8_counterexample :
    cleanCertificateId (cleanCertificateId ("OO0".data)) ≠
      cleanCertificateId ("OO0".data) := by
  with_unfolding_all decide

/-- C8 amended: cleanup of an already-clean id — no whitespace, none of the
globally replaced confusables, and no `l`/`I`/`O` in any of the six
substitution contexts (flanked by digits, at an end next to a digit, or next
to a zero) — is a no-op, and cleanup is idempotent on such ids; full
idempotence for every string fails (see the counterexample). -/
theorem c8_clean_id_noop (s : List Char) (h : isCleanCertId s = true) :
    cleanCertificateId s = s ∧
    cleanCertificateId (cleanCertificateId s) = cleanCertificateId s := by
  unfold isCleanCertId at h
  repeat rw [Bool.and_eq_true] at h
  obtain ⟨⟨⟨⟨⟨⟨hall, h1⟩, h2⟩, h3⟩, h4⟩, h5⟩, h6⟩ := h
  have hmain : cleanCertificateId s = s := by
    by_cases hs : s = []
    · simp [cleanCertificateId, hs]
    · have hfilter : s.filter (fun c => ¬ pyIsSpace c) = s := by
        rw [List.filter_eq_self]
        intro a ha
        have := List.all_eq_true.mp hall a ha
        rw [Bool.and_eq_true] at this
        exact this.1
      have hmap : s.map globalConfusable = s := by
        apply listMapEqSelf
        intro a ha
        have := List.all_eq_true.mp hall a ha
        rw [Bool.and_eq_true] at this
        simpa using this.2
      have e2 : subFlank ruleLowLBetween none s = s := subFlank_eq_self _ s none h1
      have e3 : subFlank ruleLowLStart none s = s := subFlank_eq_self _ s none h2
      have e4 : subFlank ruleLowLEnd none s = s := subFlank_eq_self _ s none h3
      have e5 : subFlank ruleCapIBetween none s = s := subFlank_eq_self _ s none h4
      have e6 : subFlank ruleOBeforeZero none s = s := subFlank_eq_self _ s none h5
      have e7 : subFlank ruleOAfterZero none s = s := subFlank_eq_self _ s none h6
      unfold cleanCertificateId
      rw [if_neg hs]
      simp only [hfilter, hmap, e2, e3, e4, e5, e6, e7]
  exact ⟨hmain, by rw [hmain]; exact hmain⟩

/-- C8 witness at a concrete input. -/
theorem c8_clean_id_noop_witness :
    isCleanCertId ("UC-9876".data) = true ∧
    (cleanCertificateId ("UC-9876".data) = "UC-9876".data ∧
      cleanCertificateId (cleanCertificateId ("UC-9876".data)) =
        cleanCertificateId ("UC-9876".data)) :=
  ⟨by with_unfolding_all decide,
    c8_clean_id_noop ("UC-9876".data) (by with_unfolding_all decide)⟩

/-- C9 counterexample: with every extraction field absent, `verify` exits in
its validation step with the message `"No candidate name."` (method
`validation_error`), not the claimed `"No URL generated."` — the missing
candidate name is checked before URL generation. -/
theorem c9_counterexample :
    (VerificationService.verify defaultRegistry ⟨[], []⟩
        (ExtractionResult.construct [] [] [] [] [] [])).1.message =
      "No candidate name." ∧
    (VerificationService.verify defaultRegistry ⟨[], []⟩
        (ExtractionResult.construct [] [] [] [] [] [])).1.message ≠
      "No URL generated." := by
  constructor <;> with_unfolding_all decide

/-- C9 amended: when extraction yields no fields at all, `verify` returns the
`"No candidate name."` validation result — `is_verified` false, no network
fetch performed — and, provided forensics did not flag the document, the
orchestrator final verdict is UNVERIFIED. -/
theorem c9_empty_extraction_unverified (f : ForensicsResult)
    (reg : TrustedSourceRegistry) (venv : VerifEnv)
    (h : f.is_high_risk = false) :
    (VerificationService.verify reg venv
        (ExtractionResult.construct [] [] [] [] [] [])).1.is_verified = false ∧
    (VerificationService.verify reg venv
        (ExtractionResult.construct [] [] [] [] [] [])).1.message =
      "No candidate name." ∧
    (VerificationService.verify reg venv
        (ExtractionResult.construct [] [] [] [] [] [])).2 = 0 ∧
    finalVerdict f
      (VerificationService.verify reg venv
        (ExtractionResult.construct [] [] [] [] [] [])).1.is_verified =
      "UNVERIFIED" := by
  have hv : VerificationService.verify reg venv
      (ExtractionResult.construct [] [] [] [] [] []) =
      (⟨false, false, 0, none, "validation_error", "No candidate name."⟩, 0) := by
    unfold VerificationService.verify ExtractionResult.construct
    simp
  rw [hv]
  refine ⟨rfl, rfl, rfl, ?_⟩
  unfold finalVerdict
  rw [h]
  simp

/-- C9 witness at a concrete input. -/
theorem c9_empty_extraction_unverified_witness :
    (ForensicsResult.mk 0 false "Pass - Integrity Intact").is_high_risk = false ∧
    ((VerificationService.verify defaultRegistry ⟨[], []⟩
        (ExtractionResult.construct [] [] [] [] [] [])).1.is_verified = false ∧
      (VerificationService.verify defaultRegistry ⟨[], []⟩
        (ExtractionResult.construct [] [] [] [] [] [])).1.message =
        "No candidate name." ∧
      (VerificationService.verify defaultRegistry ⟨[], []⟩
        (ExtractionResult.construct [] [] [] [] [] [])).2 = 0 ∧
      finalVerdict (ForensicsResult.mk 0 false "Pass - Integrity Intact")
        (VerificationService.verify defaultRegistry ⟨[], []⟩
          (ExtractionResult.construct [] [] [] [] [] [])).1.is_verified =
        "UNVERIFIED") :=
  ⟨rfl, c9_empty_extraction_unverified _ defaultRegistry ⟨[], []⟩ rfl⟩

/-- C1 counterexample: an extraction-stage collaborator timeout does
propagate as a pipeline fault.  With Tesseract timing out (and likewise with
the Mistral structuring call timing out), `extract` re-raises `TimeoutError`
and `/verify` raises HTTP 504 instead of resolving to a verdict object. -/
theorem c1_counterexample :
    ExtractionAgent.extract ⟨true, .timeout, .ok [], none, .response none⟩ =
      .error .timeoutError ∧
    verifyCertificate (ForensicsResult.mk 0 false "Pass - Integrity Intact")
      defaultRegistry ⟨true, .timeout, .ok [], none, .response none⟩ ⟨[], []⟩ =
      .error ⟨504⟩ ∧
    ExtractionAgent.extract ⟨true, .ok ("abc".data), .ok [], none, .timeout⟩ =
      .error .timeoutError ∧
    verifyCertificate (ForensicsResult.mk 0 false "Pass - Integrity Intact")
      defaultRegistry ⟨true, .ok ("abc".data), .ok [], none, .timeout⟩ ⟨[], []⟩ =
      .error ⟨504⟩ := by
  exact ⟨rfl, rfl, rfl, rfl⟩

/-- C1 amended: an OCR-engine timeout or a Mistral structuring-call timeout
(the two remain distinct raise sites) is re-raised by `extract` as
`TimeoutError`, and `/verify` converts it into a raised HTTP 504 error — a
fault response, not a verdict object. -/
theorem c1_timeout_raises_http_504 (f : ForensicsResult)
    (reg : TrustedSourceRegistry) (venv : VerifEnv) (eenv : ExtEnv)
    (hvalid : eenv.image_valid = true)
    (h : eenv.tesseract = .timeout ∨
      (∃ t, eenv.tesseract = .ok t ∧
        (hasCriticalData t = true ∨ ∃ e, eenv.easyocr = .ok e) ∧
        eenv.mistral = .timeout)) :
    verifyCertificate f reg eenv venv = .error ⟨504⟩ := by
  rcases eenv with ⟨iv, tes, easy, qr, mis⟩
  simp only at hvalid
  subst hvalid
  rcases h with htes | ⟨t, htes, hcase, hmis⟩
  · simp only at htes
    subst htes
    unfold verifyCertificate ExtractionAgent.extract performOcrCascade
    simp
  · simp only at htes hmis
    subst htes
    subst hmis
    rcases hcase with hcrit | ⟨e, heasy⟩
    · unfold verifyCertificate ExtractionAgent.extract performOcrCascade
      simp [hcrit]
    · simp only at heasy
      subst heasy
      unfold verifyCertificate ExtractionAgent.extract performOcrCascade
      by_cases hcrit : hasCriticalData t <;> simp [hcrit]
      by_cases he : e = [] <;> simp [he]

/-- C1 witness at a concrete input. -/
theorem c1_timeout_raises_http_504_witness :
    (ExtEnv.mk true .timeout (.ok []) none (.response none)).image_valid = true ∧
    (ExtEnv.mk true .timeout (.ok []) none (.response none)).tesseract = .timeout ∧
    verifyCertificate (ForensicsResult.mk 0 false "Pass - Integrity Intact")
      defaultRegistry (ExtEnv.mk true .timeout (.ok []) none (.response none))
      ⟨[], []⟩ = .error ⟨504⟩ :=
  ⟨rfl, rfl,
    c1_timeout_raises_http_504 _ defaultRegistry ⟨[], []⟩ _ rfl (Or.inl rfl)⟩

theorem fuzzyFoldState (g : IssuerName → ℚ) :
    ∀ (l : List IssuerName) (acc : Option IssuerName × ℚ),
      (acc.1 = none ∧ acc.2 = 0 ∨ ∃ e, acc.1 = some e ∧ acc.2 = g e) →
      ((l.foldl (fun acc item =>
          if g item > acc.2 then (some item, g item) else acc) acc).1 = none ∧
        (l.foldl (fun acc item =>
          if g item > acc.2 then (some item, g item) else acc) acc).2 = 0 ∨
       ∃ e, (l.foldl (fun acc item =>
          if g item > acc.2 then (some item, g item) else acc) acc).1 = some e ∧
        (l.foldl (fun acc item =>
          if g item > acc.2 then (some item, g item) else acc) acc).2 = g e)
  | [], _, h => h
  | x :: rest, acc, h => by
    simp only [List.foldl_cons]
    by_cases hx : g x > acc.2
    · rw [if_pos hx]
      exact fuzzyFoldState g rest _ (Or.inr ⟨x, rfl, rfl⟩)
    · rw [if_neg hx]
      exact fuzzyFoldState g rest _ h

theorem fuzzyFoldGe (g : IssuerName → ℚ) :
    ∀ (l : List IssuerName) (acc : Option IssuerName × ℚ),
      acc.2 ≤ (l.foldl (fun acc item =>
          if g item > acc.2 then (some item, g item) else acc) acc).2 ∧
      ∀ e ∈ l, g e ≤ (l.foldl (fun acc item =>
          if g item > acc.2 then (some item, g item) else acc) acc).2
  | [], _ => ⟨le_refl _, by simp⟩
  | x :: rest, acc => by
    simp only [List.foldl_cons]
    by_cases hx : g x > acc.2
    · rw [if_pos hx]
      have ih := fuzzyFoldGe g rest (some x, g x)
      refine ⟨le_trans (le_of_lt hx) ih.1, ?_⟩
      intro e he
      rcases List.mem_cons.mp he with rfl | hmem
      · exact ih.1
      · exact ih.2 e hmem
    · rw [if_neg hx]
      have ih := fuzzyFoldGe g rest acc
      refine ⟨ih.1, ?_⟩
      intro e he
      rcases List.mem_cons.mp he with rfl | hmem
      · exact le_trans (not_lt.mp hx) ih.1
      · exact ih.2 e hmem

theorem fuzzyFoldLt (g : IssuerName → ℚ) (c : ℚ) :
    ∀ (l : List IssuerName) (acc : Option IssuerName × ℚ),
      acc.2 < c → (∀ e ∈ l, g e < c) →
      (l.foldl (fun acc item =>
          if g item > acc.2 then (some item, g item) else acc) acc).2 < c
  | [], _, ha, _ => ha
  | x :: rest, acc, ha, hl => by
    simp only [List.foldl_cons]
    by_cases hx : g x > acc.2
    · rw [if_pos hx]
      exact fuzzyFoldLt g c rest _ (hl x (by simp)) (fun e he => hl e (by simp [he]))
    · rw [if_neg hx]
      exact fuzzyFoldLt g c rest acc ha (fun e he => hl e (by simp [he]))

theorem issuerNameMemAll (e : IssuerName) : e ∈ IssuerName.all := by
  cases e <;> decide

/-- C10: the `issuer_name` field of a constructed `ExtractionResult` is an
`IssuerName` member or `None`: a raw issuer string is coerced through
`fuzzy_match_issuer`, which accepts the best-ratio member only at
`SequenceMatcher` ratio `≥ 0.6`, and drops the issuer to `None` exactly when
the string is empty or no member reaches ratio `0.6`. -/
theorem c10_issuer_coercion (candidate certificate issuerRaw issuerUrl
    issuerOrg snippet : List Char) :
    ((ExtractionResult.construct candidate certificate issuerRaw issuerUrl
        issuerOrg snippet).issuer_name = none ↔
      (issuerRaw = [] ∨ ∀ e : IssuerName,
        seqRatio (lowerList (stripWs issuerRaw)) (lowerList e.value) < 0.6)) ∧
    (∀ e : IssuerName,
      (ExtractionResult.construct candidate certificate issuerRaw issuerUrl
        issuerOrg snippet).issuer_name = some e →
      0.6 ≤ seqRatio (lowerList (stripWs issuerRaw)) (lowerList e.value)) := by
  simp only [ExtractionResult.construct, validateIssuer]
  by_cases hraw : issuerRaw = []
  · subst hraw
    constructor
    · simp [fuzzyMatchIssuer]
    · intro e hsome
      rw [fuzzyMatchIssuer] at hsome
      simp at hsome
  · simp only [fuzzyMatchIssuer, if_neg hraw]
    have hstate := fuzzyFoldState
      (fun item => seqRatio (lowerList (stripWs issuerRaw)) (lowerList item.value))
      IssuerName.all (none, 0) (Or.inl ⟨rfl, rfl⟩)
    beta_reduce at hstate
    have hge := fuzzyFoldGe
      (fun item => seqRatio (lowerList (stripWs issuerRaw)) (lowerList item.value))
      IssuerName.all (none, 0)
    constructor
    · constructor
      · intro hnone
        by_contra hcon
        push_neg at hcon
        obtain ⟨e0, he0⟩ := hcon.2
        have hbest : 0.6 ≤ (IssuerName.all.foldl (fun acc item =>
            if seqRatio (lowerList (stripWs issuerRaw)) (lowerList item.value) > acc.2
            then (some item, seqRatio (lowerList (stripWs issuerRaw)) (lowerList item.value))
            else acc) (none, 0)).2 :=
          le_trans he0 (hge.2 e0 (issuerNameMemAll e0))
        rw [if_pos hbest] at hnone
        rcases hstate with ⟨_, h0⟩ | ⟨e, he, _⟩
        · rw [h0] at hbest
          norm_num at hbest
        · rw [he] at hnone
          exact Option.some_ne_none e hnone
      · intro hdisj
        rcases hdisj with hraw' | hall
        · exact absurd hraw' hraw
        · have hlt := fuzzyFoldLt
            (fun item => seqRatio (lowerList (stripWs issuerRaw)) (lowerList item.value))
            0.6 IssuerName.all (none, 0) (by norm_num) (fun e _ => hall e)
          rw [if_neg (not_le.mpr hlt)]
    · intro e hsome
      by_cases hc : 0.6 ≤ (IssuerName.all.foldl (fun acc item =>
          if seqRatio (lowerList (stripWs issuerRaw)) (lowerList item.value) > acc.2
          then (some item, seqRatio (lowerList (stripWs issuerRaw)) (lowerList item.value))
          else acc) (none, 0)).2
      · rw [if_pos hc] at hsome
        rcases hstate with ⟨hn, _⟩ | ⟨e', he', hv⟩
        · rw [hn] at hsome
          exact absurd hsome (by simp)
        · rw [he'] at hsome
          cases hsome
          rw [hv] at hc
          exact hc
      · rw [if_neg hc] at hsome
        exact absurd hsome (by simp)

set_option maxRecDepth 10000 in
/-- C10 witness at a concrete input: the raw issuer string `"Udemy"` is
coerced to the `udemy` member, whose ratio reaches the acceptance bound. -/
theorem c10_issuer_coercion_witness :
    (ExtractionResult.construct [] [] ("Udemy".data) [] [] []).issuer_name =
      some IssuerName.udemy ∧
    0.6 ≤ seqRatio (lowerList (stripWs ("Udemy".data)))
      (lowerList IssuerName.udemy.value) :=
  ⟨by with_unfolding_all decide,
   (c10_issuer_coercion [] [] ("Udemy".data) [] [] []).2 IssuerName.udemy
     (by with_unfolding_all decide)⟩
